import Mathlib

/-
Verification of the backupbozo media-backup pipeline.

This file gives a shallow embedding, in Lean 4, of the core data model and
operations of the backupbozo repository (Go): the file-state taxonomy and
classifier (files.go, pipeline.go), the accounting fold and its validation
(pipeline.go), the hash-while-copy primitive (files.go), the resume filter
(backup.go, the resume-state module), the worker-count plumbing of the two
scheduler passes (backup.go), the watermark query (database.go), and an
interleaving model of the duplicate check / copy / hash-set insert performed
by concurrent workers (pipeline.go + database.go).

Machine integers are modelled as Int (no arithmetic here overflows), Go's
`time.Time` as an abstract record carrying exactly the observations the code
makes of it (Unix seconds, the "2006-01" rendering, IsZero), and I/O outcomes
as explicit parameters (every syscall the code inspects becomes a Bool or an
Option field of an environment record).
-/

namespace Backupbozo

/-- Abstraction of Go `time.Time`, carrying exactly the three observations the
backupbozo code makes of a time value: `Unix()` seconds, the `Format("2006-01")`
month rendering, and `IsZero()`. -/
structure GoTime where
  unix : Int
  ym : String
  isZero : Bool
deriving DecidableEq, Repr

/-- The zero `time.Time{}`: `IsZero()` is true; `Unix()` of the zero time is
-62135596800 and it formats as "0001-01". -/
def GoTime.zeroTime : GoTime :=
  { unix := -62135596800, ym := "0001-01", isZero := true }

/-- FileState from pipeline.go: the closed enum of terminal outcomes. -/
inductive FileState where
  | stateCopied
  | stateSkippedExtension
  | stateSkippedIncremental
  | stateSkippedDate
  | stateSkippedDestExists
  | stateDuplicateHash
  | stateErrorStat
  | stateErrorDate
  | stateErrorHash
  | stateErrorCopy
  | stateErrorWalk
deriving DecidableEq, Repr

/-- FileState.String() from pipeline.go. -/
def stateString : FileState → String
  | .stateCopied => "copied"
  | .stateSkippedExtension => "skipped (extension)"
  | .stateSkippedIncremental => "skipped (incremental)"
  | .stateSkippedDate => "skipped (no date)"
  | .stateSkippedDestExists => "skipped (destination exists)"
  | .stateDuplicateHash => "duplicate (hash exists)"
  | .stateErrorStat => "error (stat)"
  | .stateErrorDate => "error (date extraction)"
  | .stateErrorHash => "error (hash computation)"
  | .stateErrorCopy => "error (copy failed)"
  | .stateErrorWalk => "error (walk failed)"

/-- allowedExtensions from main.go: membership in the fixed extension map. -/
def allowedExtensions (ext : String) : Bool :=
  [".jpg", ".jpeg", ".heic", ".png", ".mp4", ".mov", ".mkv", ".webm", ".avi"].contains ext

/-- FileCandidate from pipeline.go, restricted to the fields the classifier
reads: Path, the cached Info.ModTime(), the normalized Extension, DestDir and
Info.Size(). `Info` is modelled as always present (every caller in backup.go
constructs the candidate with a cached, non-nil os.FileInfo). -/
structure FileCandidate where
  path : String
  modTime : GoTime
  extension : String
  destDir : String
  size : Int
deriving DecidableEq, Repr

/-- Result of metadataRegistry.ExtractBestDate: the date and whether the
extraction reported an error (`result.Error != nil`). -/
structure ExtractResult where
  date : GoTime
  hasError : Bool
deriving DecidableEq, Repr

/-- The ambient filesystem/metadata oracle the classifier consults:
`extractBestDate` is metadataRegistry.ExtractBestDate, `destExists path` is
`os.Stat(path) == nil`, and `fileHash path` is the SHA-256 hex digest of the
file (`none` when os.Open or io.Copy fails, the cases files.go maps to
StateErrorHash). -/
structure ClassifierEnv where
  extractBestDate : String → ExtractResult
  destExists : String → Bool
  fileHash : String → Option String

/-- filepath.Base, for the slash-separated paths used here. -/
def goFilepathBase (p : String) : String :=
  ((p.splitOn "/").getLast?).getD p

/-- The destination path computed in files.go:
`filepath.Join(filepath.Join(destDir, date.Format("2006-01")), filepath.Base(path))`. -/
def destPathFor (c : FileCandidate) (date : GoTime) : String :=
  c.destDir ++ "/" ++ date.ym ++ "/" ++ goFilepathBase c.path

/-- Step 3 of evaluateFileForBackup (files.go): the resolved date after the
metadata lookup with modification-time fallback. `none` is the case the code
maps to StateSkippedDate (extraction failed or returned the zero date, and the
fallback modification time is itself zero). -/
def resolvedDate (env : ClassifierEnv) (c : FileCandidate) : Option GoTime :=
  let result := env.extractBestDate c.path
  if result.hasError || result.date.isZero then
    if c.modTime.isZero then none else some c.modTime
  else some result.date

/-- Outcome of the instrumented classifier: the FileState it returns, plus
whether it reached the hash-computation step (opened the file to hash it). -/
structure EvalOutcome where
  state : FileState
  hashAttempted : Bool
deriving DecidableEq, Repr

/-- Steps 4-5 of evaluateFileForBackup (files.go): destination-existence check,
then hash computation and the in-memory duplicate lookup `hashSet[hash]`. -/
def evalFromDate (env : ClassifierEnv) (c : FileCandidate) (hashSet : List String)
    (date : GoTime) : EvalOutcome :=
  if env.destExists (destPathFor c date) then
    { state := .stateSkippedDestExists, hashAttempted := false }
  else
    match env.fileHash c.path with
    | none => { state := .stateErrorHash, hashAttempted := true }
    | some hash =>
      if hashSet.contains hash then
        { state := .stateDuplicateHash, hashAttempted := true }
      else
        { state := .stateCopied, hashAttempted := true }

/-- evaluateFileForBackup from files.go (instrumented with the hashAttempted
flag): extension check, incremental check, date resolution, destination
existence, then hash + duplicate check, each short-circuiting. The Go hash map
`hashSet map[string]bool` is modelled as the list of keys set to true. -/
def evaluateFileForBackupI (env : ClassifierEnv) (c : FileCandidate)
    (hashSet : List String) (incremental : Bool) (minMtime : Int) : EvalOutcome :=
  if !(allowedExtensions c.extension) then
    { state := .stateSkippedExtension, hashAttempted := false }
  else if incremental = true ∧ 0 < minMtime ∧ c.modTime.unix ≤ minMtime then
    { state := .stateSkippedIncremental, hashAttempted := false }
  else
    match resolvedDate env c with
    | none => { state := .stateSkippedDate, hashAttempted := false }
    | some date => evalFromDate env c hashSet date

/-- evaluateFileForBackup from files.go: the FileState it returns. -/
def evaluateFileForBackup (env : ClassifierEnv) (c : FileCandidate)
    (hashSet : List String) (incremental : Bool) (minMtime : Int) : FileState :=
  (evaluateFileForBackupI env c hashSet incremental minMtime).state

/-- PlanningResult from files.go. -/
structure PlanningResult where
  shouldCopy : Bool
  size : Int
  reason : String
deriving DecidableEq, Repr

/-- evaluateFileForPlanning from files.go: the fast planning-pass variant,
using the filesystem modification time as the date and no hashing. -/
def evaluateFileForPlanning (env : ClassifierEnv) (c : FileCandidate)
    (incremental : Bool) (minMtime : Int) : PlanningResult :=
  if !(allowedExtensions c.extension) then
    { shouldCopy := false, size := 0, reason := "Extension not allowed" }
  else if incremental = true ∧ 0 < minMtime ∧ c.modTime.unix ≤ minMtime then
    { shouldCopy := false, size := 0, reason := "File older than last backup" }
  else
    let filesystemDate := c.modTime
    if filesystemDate.isZero then
      { shouldCopy := false, size := 0, reason := "No valid filesystem date" }
    else
      let planningDestPath := destPathFor c filesystemDate
      if env.destExists planningDestPath then
        { shouldCopy := false, size := 0, reason := "File already exists at destination" }
      else
        { shouldCopy := true, size := c.size, reason := "File ready for backup" }

/-- A concrete oracle for witnesses and counterexamples: date extraction always
fails (forcing the modification-time fallback), no destination file exists, and
every file hashes to "h0". -/
def envNoMeta : ClassifierEnv :=
  { extractBestDate := fun _ => { date := GoTime.zeroTime, hasError := true }
    destExists := fun _ => false
    fileHash := fun _ => some "h0" }

/-- A candidate with a disallowed extension whose modification time (3) is at
or below the watermark used in the claim-5 counterexample. -/
def candTxt : FileCandidate :=
  { path := "/src/c.txt", modTime := { unix := 3, ym := "1970-01", isZero := false },
    extension := ".txt", destDir := "/dst", size := 10 }

/-- A candidate with an allowed extension whose modification time sits exactly
on the watermark boundary T = 5. -/
def candJpgBoundary : FileCandidate :=
  { path := "/src/a.jpg", modTime := { unix := 5, ym := "1970-01", isZero := false },
    extension := ".jpg", destDir := "/dst", size := 10 }

/-- ProcessingResult from pipeline.go, restricted to the fields the accounting
fold reads: Candidate.Path, Candidate.DestPath, FinalState, Error (its message,
none for a nil error) and BytesCopied. -/
structure ProcessingResult where
  path : String
  destPath : String
  finalState : FileState
  error : Option String
  bytesCopied : Int
deriving DecidableEq, Repr

/-- AccountingSummary from pipeline.go. -/
structure AccountingSummary where
  copied : Int
  skipped : Int
  duplicates : Int
  errors : Int
  copiedFiles : List (String × String)
  skippedFiles : List (String × String)
  duplicateFiles : List (String × String)
  errorList : List String
  totalBytes : Int
  totalFiles : Int
  walkErrors : Int
deriving DecidableEq, Repr

/-- The initial summary built at the top of GenerateAccountingSummary:
TotalFiles and WalkErrors set, all other fields at their Go zero values. -/
def emptySummary (totalFiles walkErrors : Int) : AccountingSummary :=
  { copied := 0, skipped := 0, duplicates := 0, errors := 0, copiedFiles := [],
    skippedFiles := [], duplicateFiles := [], errorList := [], totalBytes := 0,
    totalFiles := totalFiles, walkErrors := walkErrors }

/-- The four buckets of the accounting model; stateBucket is the (total)
assignment of each FileState to its bucket, read off the switch statement in
GenerateAccountingSummary. -/
inductive Bucket where
  | copiedB
  | skippedB
  | duplicateB
  | errorB
deriving DecidableEq, Repr

/-- Which of the four buckets each FileState lands in (the case grouping of the
switch in GenerateAccountingSummary). -/
def stateBucket : FileState → Bucket
  | .stateCopied => .copiedB
  | .stateDuplicateHash => .duplicateB
  | .stateSkippedExtension | .stateSkippedIncremental
  | .stateSkippedDate | .stateSkippedDestExists => .skippedB
  | .stateErrorStat | .stateErrorDate | .stateErrorHash
  | .stateErrorCopy | .stateErrorWalk => .errorB

/-- Number of results whose final state falls in bucket b. -/
def bucketCount (b : Bucket) : List ProcessingResult → Int
  | [] => 0
  | r :: rest => (if stateBucket r.finalState = b then 1 else 0) + bucketCount b rest

/-- The switch body of GenerateAccountingSummary for one (non-nil) result. -/
def updateSummary (summary : AccountingSummary) (result : ProcessingResult) :
    AccountingSummary :=
  match result.finalState with
  | .stateCopied =>
    { summary with
      copied := summary.copied + 1
      copiedFiles := summary.copiedFiles ++ [(result.path, result.destPath)]
      totalBytes := summary.totalBytes + result.bytesCopied }
  | .stateDuplicateHash =>
    { summary with
      duplicates := summary.duplicates + 1
      duplicateFiles := summary.duplicateFiles ++ [(result.path, result.destPath)] }
  | .stateSkippedExtension | .stateSkippedIncremental
  | .stateSkippedDate | .stateSkippedDestExists =>
    { summary with
      skipped := summary.skipped + 1
      skippedFiles := summary.skippedFiles ++
        [(result.path, stateString result.finalState)] }
  | .stateErrorStat | .stateErrorDate | .stateErrorHash | .stateErrorCopy =>
    { summary with
      errors := summary.errors + 1
      errorList := summary.errorList ++
        [(match result.error with
          | some e => result.path ++ ": " ++ e
          | none => result.path ++ ": " ++ stateString result.finalState)] }
  | .stateErrorWalk =>
    -- walk errors are handled separately via the walkErrors parameter
    { summary with errors := summary.errors + 1 }

/-- The result loop of GenerateAccountingSummary. The Go slice elements are
pointers `*ProcessingResult`; `none` models a nil pointer, on which the Go code
dereferences `result.FinalState` and panics (modelled as Except.error). -/
def generateLoop (summary : AccountingSummary) :
    List (Option ProcessingResult) → Except String AccountingSummary
  | [] => .ok summary
  | none :: _ =>
    .error "runtime error: invalid memory address or nil pointer dereference"
  | some result :: rest => generateLoop (updateSummary summary result) rest

/-- GenerateAccountingSummary from pipeline.go: fold the results, then append
the walk errors to the error list and add their count to Errors. -/
def GenerateAccountingSummary (results : List (Option ProcessingResult))
    (walkErrors : List String) : Except String AccountingSummary :=
  match generateLoop (emptySummary (results.length : Int) (walkErrors.length : Int)) results with
  | .error e => .error e
  | .ok summary =>
    .ok { summary with
          errorList := summary.errorList ++ walkErrors.map (fun w => "walk error: " ++ w)
          errors := summary.errors + (walkErrors.length : Int) }

/-- AccountingSummary.Validate from pipeline.go: non-nil (some message) exactly
when copied + skipped + duplicates + errors - walkErrors differs from
totalFiles. -/
def AccountingSummary.Validate (as : AccountingSummary) : Option String :=
  let accountedFiles := as.copied + as.skipped + as.duplicates + as.errors - as.walkErrors
  if accountedFiles ≠ as.totalFiles then
    some "accounting mismatch: processed and accounted file counts differ"
  else
    none

/-- Environment of one call to copyFileWithHashAndTimestamps (files.go): the
outcome of every I/O operation the function inspects. `chunks` is the sequence
of successful reads from src (the byte groups in.Read returns before EOF);
`readFails` makes the read after the last chunk return an error instead of EOF;
`writeFailAt` is the index of the chunk whose write to the temp file fails;
`cancelAt` is the logical instant from which ctx.Err() is non-nil (the loop-top
check of iteration k happens at instant k, the post-loop code at the final
instant + 1) — cancellation is monotone, matching Go contexts. -/
structure CopyEnv where
  statSrcOk : Bool
  openSrcOk : Bool
  createTmpOk : Bool
  chunks : List (List Nat)
  readFails : Bool
  writeFailAt : Option Nat
  syncOk : Bool
  closeOk : Bool
  chtimesOk : Bool
  renameOk : Bool
  cancelAt : Option Nat
deriving DecidableEq, Repr

/-- ctx.Err() != nil at logical instant t. -/
def ctxCancelled (cancelAt : Option Nat) (t : Nat) : Bool :=
  match cancelAt with
  | none => false
  | some c => decide (c ≤ t)

/-- How the buffered copy loop of copyFileWithHashAndTimestamps exits:
cancelled at a loop-top check, failed on a read or write, or completed with
the bytes fed to both the temp file and the hash accumulator. The Nat is the
logical instant of the exit, at which the deferred cleanup reads ctx.Err(). -/
inductive LoopExit where
  | cancelledExit (t : Nat)
  | failedExit (t : Nat)
  | okExit (data : List Nat) (t : Nat)
deriving DecidableEq, Repr

/-- The copy loop of copyFileWithHashAndTimestamps: check cancellation at the
top of each iteration, read a chunk, write it to the io.MultiWriter (temp file
+ hasher), until EOF or an error. -/
def copyLoop (env : CopyEnv) : List (List Nat) → Nat → Nat → List Nat → LoopExit
  | rest, t, idx, acc =>
    if ctxCancelled env.cancelAt t then .cancelledExit t
    else
      match rest with
      | [] => if env.readFails then .failedExit t else .okExit acc t
      | chunk :: rest2 =>
        if env.writeFailAt = some idx then .failedExit t
        else copyLoop env rest2 (t + 1) (idx + 1) (acc ++ chunk)

/-- Observable outcome of copyFileWithHashAndTimestamps: the returned hash
(some hex digest on success, none with an error otherwise), whether the temp
file dst+".tmp" still exists after the function returns, and whether dst was
written (by the final rename), with its bytes and whether its timestamps were
restored before the rename. -/
structure CopyResult where
  hash : Option String
  isError : Bool
  tmpExists : Bool
  dstWritten : Bool
  dstBytes : List Nat
  dstTimestamped : Bool
deriving DecidableEq, Repr

/-- An error return of the copy: no hash, dst untouched; tmpExists records
whether the temp file was left behind. -/
def copyErrResult (tmpExists : Bool) : CopyResult :=
  { hash := none, isError := true, tmpExists := tmpExists, dstWritten := false,
    dstBytes := [], dstTimestamped := false }

/-- copyFileWithHashAndTimestamps from files.go. Control flow mirrored step by
step: stat src for timestamps; open src; create dst+".tmp"; buffered copy loop
feeding the temp file and the SHA-256 hasher together; Sync; Close; a final
ctx.Err() check; setFileTimestamps on the temp file; rename temp -> dst.
The deferred cleanup runs `out.Close(); if ctx.Err() != nil { os.Remove(tmp) }`
— on a read/write/sync/close error it removes the temp file ONLY when the
context happens to be cancelled; the explicit os.Remove calls cover only
cancellation after the loop and setFileTimestamps/rename errors. `digest`
stands for the SHA-256 hex digest of the byte stream fed to the hasher. -/
def copyFileWithHashAndTimestamps (digest : List Nat → String) (env : CopyEnv) : CopyResult :=
  if !env.statSrcOk then copyErrResult false
  else if !env.openSrcOk then copyErrResult false
  else if !env.createTmpOk then copyErrResult false
  else
    match copyLoop env env.chunks 0 0 [] with
    | .cancelledExit _ => copyErrResult false
    | .failedExit t => copyErrResult (!(ctxCancelled env.cancelAt t))
    | .okExit data t =>
      if !env.syncOk then copyErrResult (!(ctxCancelled env.cancelAt (t + 1)))
      else if !env.closeOk then copyErrResult (!(ctxCancelled env.cancelAt (t + 1)))
      else if ctxCancelled env.cancelAt (t + 1) then copyErrResult false
      else if !env.chtimesOk then copyErrResult false
      else if !env.renameOk then copyErrResult false
      else { hash := some (digest data), isError := false, tmpExists := false,
             dstWritten := true, dstBytes := data, dstTimestamped := true }

/-- getFileHash from main.go: a second, independent full read of the file,
returning "" when open or io.Copy fails and the hex digest otherwise. -/
def getFileHash (digest : List Nat → String) (readableOk : Bool) (data : List Nat) : String :=
  if readableOk then digest data else ""

/-- How a read loop with buffer size b slices the source bytes: full buffers
until the remainder is shorter. -/
def toChunks (b : Nat) (l : List Nat) : List (List Nat) :=
  if h : l = [] then []
  else if hb : b = 0 then [l]
  else l.take b :: toChunks b (l.drop b)
termination_by l.length
decreasing_by
  simp only [List.length_drop]
  have hl : 0 < l.length := List.length_pos.mpr h
  omega

/-- A fully successful environment: all syscalls succeed, no cancellation, the
reads return exactly the given chunks. -/
def happyCopyEnv (chunks : List (List Nat)) : CopyEnv :=
  { statSrcOk := true, openSrcOk := true, createTmpOk := true, chunks := chunks,
    readFails := false, writeFailAt := none, syncOk := true, closeOk := true,
    chtimesOk := true, renameOk := true, cancelAt := none }

/-- The claim-2 failing input: one chunk is read and written, then the next
read returns an error (e.g. an I/O failure on the source device), with the
context never cancelled. -/
def readErrorCopyEnv : CopyEnv := { happyCopyEnv [[1, 2, 3]] with readFails := true }

/-- FileWithInfo from files.go: a discovered path with its cached stat data. -/
structure FileWithInfo where
  path : String
  modTime : GoTime
  size : Int
deriving DecidableEq, Repr

/-- ResumeState (resume-state module): the set of source paths already marked
processed. The Go `ProcessedFiles map[string]bool` is modelled as the list of
keys that were set to true. -/
structure ResumeState where
  processedFiles : List String
deriving DecidableEq, Repr

/-- ResumeState.IsFileProcessed: lookup in the processed-files map (absent
keys read as false). -/
def ResumeState.IsFileProcessed (rs : ResumeState) (filePath : String) : Bool :=
  rs.processedFiles.contains filePath

/-- The resume filter loop of backupWithResume (backup.go): every discovered
file not marked processed is appended to unprocessedFiles, in order. -/
def filterUnprocessed (rs : ResumeState) (files : List FileWithInfo) : List FileWithInfo :=
  files.foldl
    (fun unprocessedFiles file =>
      if !(rs.IsFileProcessed file.path) then unprocessedFiles ++ [file]
      else unprocessedFiles)
    []

/-- The remainingFiles loop of backupWithResume: for each index i of the
planning-result slice, unprocessedFiles[i] is appended (unconditionally), so
the execution list is the first `length planningResults` unprocessed files. -/
def remainingAfterPlanning (unprocessedFiles : List FileWithInfo)
    (planningResults : List PlanningResult) : List FileWithInfo :=
  unprocessedFiles.take planningResults.length

/-- The file list handed to the execution scheduler (processFilesParallel) by
backupWithResume on a (resumed) run whose planning pass completed: filter out
the marked files, run planning over them (an ordered result slice of the same
length, here `unprocessedFiles.map evalFn` with evalFn standing for the
per-file NewFileCandidate + evaluateFileForPlanning job), keep the files the
remainingFiles loop re-collects. -/
def scheduledFiles (rs : ResumeState) (files : List FileWithInfo)
    (evalFn : FileWithInfo → PlanningResult) : List FileWithInfo :=
  let unprocessedFiles := filterUnprocessed rs files
  remainingAfterPlanning unprocessedFiles (unprocessedFiles.map evalFn)

/-- The Go zero value of PlanningResult: what an ordered result slice holds at
indices no worker ever filled. -/
def defaultPlanningResult : PlanningResult :=
  { shouldCopy := false, size := 0, reason := "" }

/-- Worker-pool semantics of evaluateFilesForPlanningParallel (files.go) as a
function of the worker count, for an uncancelled call: with a negative count,
`make(chan job, workers*2)` panics (negative buffer size); with zero workers,
no worker goroutine is started, wg.Wait() returns at once, the results channel
closes, and the collector returns the zero-valued ordered slice (no file is
evaluated; the job producer leaks); with one or more workers every job is
processed and the indexed collector returns the results in input order. -/
def evaluateFilesForPlanningParallel (workers : Int) (files : List FileWithInfo)
    (evalFn : FileWithInfo → PlanningResult) : Except String (List PlanningResult) :=
  if workers < 0 then .error "makechan: size out of range"
  else if workers = 0 then .ok (List.replicate files.length defaultPlanningResult)
  else .ok (files.map evalFn)

/-- The worker counts backupWithResume (backup.go) hands to its two scheduler
passes: the planning pass (line with evaluateFilesForPlanningParallel) receives
the caller-supplied value as is; only afterwards does `if workers <= 0 then
workers = 1` run, so the execution pass (processFilesParallel) receives the
clamped value. -/
def backupPassWorkerCounts (workers : Int) : Int × Int :=
  (workers, if workers ≤ 0 then 1 else workers)

/-- A planning-pass input file for the worker-count counterexample. -/
def planFileA : FileWithInfo :=
  { path := "/s/a.jpg", modTime := { unix := 100, ym := "2024-05", isZero := false }, size := 7 }

/-- A per-file planning job that wants to copy the file. -/
def planEvalCopy : FileWithInfo → PlanningResult :=
  fun f => { shouldCopy := true, size := f.size, reason := "File ready for backup" }

/-- Phases of one worker processing one file through the execution pipeline:
about to run the duplicate check (the `hashSet[hash]` lookup at the end of
evaluateFileForBackup), about to copy (copyFileWithHashAndTimestamps), about
to insert (BatchInserter.Add, which sets `hashSet[hash] = true` under the
mutex), or finished. -/
inductive WorkerPhase where
  | atCheck
  | atCopy
  | atAdd
  | donePhase
deriving DecidableEq, Repr, Fintype

/-- One worker's view while processing its file: phase, whether its copy has
completed, and whether its duplicate check observed the hash. -/
structure WorkerView where
  phase : WorkerPhase
  copied : Bool
  sawDup : Bool
deriving DecidableEq, Repr, Fintype

/-- Shared state of two workers processing two files with identical content
(and distinct basenames, so the destination-exists check never intervenes):
whether their common hash is in the in-memory hash set, plus both workers. -/
structure RaceState where
  hashPresent : Bool
  w1 : WorkerView
  w2 : WorkerView
deriving DecidableEq, Repr, Fintype

/-- One atomic action of a worker, as the source performs it: atCheck reads
the shared hash set (classifyAndProcessFile via evaluateFileForBackup) — if
the hash is present the file is classified DuplicateHash and the worker is
done, otherwise the decision is to copy; atCopy completes the physical copy;
atAdd runs BatchInserter.Add, which inserts the hash into the shared set (the
only insertion point, and it runs only after the copy has completed). -/
def stepWorker (hashPresent : Bool) (w : WorkerView) : Bool × WorkerView :=
  match w.phase with
  | .atCheck =>
    if hashPresent then (hashPresent, { w with phase := .donePhase, sawDup := true })
    else (hashPresent, { w with phase := .atCopy })
  | .atCopy => (hashPresent, { w with phase := .atAdd, copied := true })
  | .atAdd => (true, { w with phase := .donePhase })
  | .donePhase => (hashPresent, w)

/-- Run one atomic action of worker 1 (first = true) or worker 2. -/
def raceStep (r : RaceState) (first : Bool) : RaceState :=
  if first then
    let res := stepWorker r.hashPresent r.w1
    { r with hashPresent := res.1, w1 := res.2 }
  else
    let res := stepWorker r.hashPresent r.w2
    { r with hashPresent := res.1, w2 := res.2 }

/-- Run a whole interleaving (schedule of atomic actions). -/
def raceRun (r : RaceState) (sched : List Bool) : RaceState :=
  sched.foldl raceStep r

/-- Both workers at their duplicate check, the shared content hash not yet in
the index (its content was never archived before). -/
def raceInit : RaceState :=
  { hashPresent := false,
    w1 := { phase := .atCheck, copied := false, sawDup := false },
    w2 := { phase := .atCheck, copied := false, sawDup := false } }

/-- Per-worker consistency: copied is set exactly from the copy step on, and a
finished worker either copied or observed a duplicate. -/
def workerPhaseOK (w : WorkerView) : Bool :=
  match w.phase with
  | .atCheck => !w.copied && !w.sawDup
  | .atCopy => !w.copied
  | .atAdd => w.copied
  | .donePhase => w.copied || w.sawDup

/-- Inductive invariant of the race: the hash is present only after someone
copied (Add runs after the copy), and a worker that observed a duplicate did
so because the other worker had already copied. -/
def raceInv (r : RaceState) : Bool :=
  (!r.hashPresent || r.w1.copied || r.w2.copied) &&
  (!r.w1.sawDup || r.w2.copied) &&
  (!r.w2.sawDup || r.w1.copied) &&
  workerPhaseOK r.w1 && workerPhaseOK r.w2

/-- When both workers are finished, at least one of them copied. -/
def raceFinalOK (r : RaceState) : Bool :=
  !(decide (r.w1.phase = .donePhase) && decide (r.w2.phase = .donePhase)) ||
    r.w1.copied || r.w2.copied

/-- Outcome of the one row.Scan(&last) that getLastBackupTime (database.go)
performs: a scan error (query failure, no row, NULL MAX on an empty table) or
the scanned string value. -/
inductive ScanOutcome where
  | scanError
  | scanned (last : String)
deriving DecidableEq, Repr

/-- getLastBackupTime from database.go, parameterized by time.Parse
(RFC3339): every failure path — scan error, empty value, parse failure —
returns the zero time with a nil error. -/
def getLastBackupTime (parse : String → Option GoTime) (scan : ScanOutcome) :
    GoTime × Option String :=
  match scan with
  | .scanError => (GoTime.zeroTime, none)
  | .scanned last =>
    if last = "" then (GoTime.zeroTime, none)
    else
      match parse last with
      | none => (GoTime.zeroTime, none)
      | some parsed => (parsed, none)

/-- The minMtime computation of backupWithResume (backup.go): minMtime starts
at 0 and is set to lastBackupTime.Unix() only when incremental is on, the
watermark read returned no error, and the time is non-zero. -/
def minMtimeFromWatermark (incremental : Bool) (lastBackupTime : GoTime)
    (err : Option String) : Int :=
  if incremental = true ∧ err = none ∧ lastBackupTime.isZero = false then
    lastBackupTime.unix
  else 0

/-- Claim C5 counterexample: with incremental mode active and watermark T = 5,
the candidate candTxt has modTime.unix = 3 <= 5, yet the classifier returns
SkippedExtension (its extension ".txt" fails the earlier check), not
SkippedIncremental as the claim states for every such candidate. -/
theorem claim5_counterexample :
    candTxt.modTime.unix ≤ 5 ∧ (0 : Int) < 5 ∧
    evaluateFileForBackup envNoMeta candTxt [] true 5 = .stateSkippedExtension ∧
    evaluateFileForBackup envNoMeta candTxt [] true 5 ≠ .stateSkippedIncremental := by
  refine ⟨by decide, by decide, ?_, ?_⟩ <;> decide

/-- Claim C5 (amended): for every candidate whose extension is in the allowed
set, evaluated with incremental mode active and positive watermark T, if
modTime <= T (boundary included) then the execution classifier returns
SkippedIncremental and the planning classifier returns the incremental skip. -/
theorem claim5_theorem (env : ClassifierEnv) (c : FileCandidate) (hashSet : List String)
    (minMtime : Int) (hext : allowedExtensions c.extension = true)
    (hpos : 0 < minMtime) (hmod : c.modTime.unix ≤ minMtime) :
    evaluateFileForBackup env c hashSet true minMtime = .stateSkippedIncremental ∧
    evaluateFileForPlanning env c true minMtime =
      { shouldCopy := false, size := 0, reason := "File older than last backup" } := by
  constructor
  · simp [evaluateFileForBackup, evaluateFileForBackupI, hext, hpos, hmod]
  · simp [evaluateFileForPlanning, hext, hpos, hmod]

/-- Claim C5 witness: the boundary case modTime = T = 5 for an allowed
extension is skipped as incremental. -/
theorem claim5_witness :
    evaluateFileForBackup envNoMeta candJpgBoundary [] true 5 = .stateSkippedIncremental :=
  (claim5_theorem envNoMeta candJpgBoundary [] 5 (by decide) (by decide) (by decide)).1

/-- Claim C6: the execution-pass classifier short-circuits in the fixed order
extension, incremental watermark, date resolution, destination existence,
hash/duplicate check; an earlier failing check determines the state regardless
of later conditions, and the hash is attempted exactly when all earlier checks
pass. -/
theorem claim6_theorem (env : ClassifierEnv) (c : FileCandidate) (hashSet : List String)
    (incremental : Bool) (minMtime : Int) :
    (allowedExtensions c.extension = false →
      evaluateFileForBackup env c hashSet incremental minMtime = .stateSkippedExtension) ∧
    (allowedExtensions c.extension = true →
      (incremental = true ∧ 0 < minMtime ∧ c.modTime.unix ≤ minMtime) →
      evaluateFileForBackup env c hashSet incremental minMtime = .stateSkippedIncremental) ∧
    (allowedExtensions c.extension = true →
      ¬(incremental = true ∧ 0 < minMtime ∧ c.modTime.unix ≤ minMtime) →
      resolvedDate env c = none →
      evaluateFileForBackup env c hashSet incremental minMtime = .stateSkippedDate) ∧
    (∀ date, allowedExtensions c.extension = true →
      ¬(incremental = true ∧ 0 < minMtime ∧ c.modTime.unix ≤ minMtime) →
      resolvedDate env c = some date →
      env.destExists (destPathFor c date) = true →
      evaluateFileForBackup env c hashSet incremental minMtime = .stateSkippedDestExists) ∧
    ((evaluateFileForBackupI env c hashSet incremental minMtime).hashAttempted = true ↔
      allowedExtensions c.extension = true ∧
      ¬(incremental = true ∧ 0 < minMtime ∧ c.modTime.unix ≤ minMtime) ∧
      ∃ date, resolvedDate env c = some date ∧ env.destExists (destPathFor c date) = false) := by
  refine ⟨?_, ?_, ?_, ?_, ?_⟩
  · intro hext
    simp [evaluateFileForBackup, evaluateFileForBackupI, hext]
  · intro hext hinc
    simp [evaluateFileForBackup, evaluateFileForBackupI, hext, hinc]
  · intro hext hinc hdate
    simp [evaluateFileForBackup, evaluateFileForBackupI, hext, hinc, hdate]
  · intro date hext hinc hdate hdest
    simp [evaluateFileForBackup, evaluateFileForBackupI, hext, hinc, hdate,
      evalFromDate, hdest]
  · by_cases hext : allowedExtensions c.extension
    · by_cases hinc : incremental = true ∧ 0 < minMtime ∧ c.modTime.unix ≤ minMtime
      · simp [evaluateFileForBackupI, hext, hinc]
      · cases hres : resolvedDate env c with
        | none => simp [evaluateFileForBackupI, hext, hinc, hres]
        | some date =>
          by_cases hdest : env.destExists (destPathFor c date)
          · simp [evaluateFileForBackupI, hext, hinc, hres, evalFromDate, hdest]
          · cases hh : env.fileHash c.path with
            | none =>
              simp [evaluateFileForBackupI, hext, hinc, hres, evalFromDate, hdest, hh]
            | some hash =>
              by_cases hdup : hash ∈ hashSet <;>
                simp [evaluateFileForBackupI, hext, hinc, hres, evalFromDate, hdest, hh, hdup]
    · simp [evaluateFileForBackupI, hext]

/-- Claim C6 witness: the order theorem applied at a disallowed-extension
candidate (first check fires) and at the hash-attempt characterization. -/
theorem claim6_witness :
    evaluateFileForBackup envNoMeta candTxt [] false 0 = .stateSkippedExtension ∧
    (evaluateFileForBackupI envNoMeta candJpgBoundary [] false 0).hashAttempted = true :=
  ⟨(claim6_theorem envNoMeta candTxt [] false 0).1 (by decide),
   (claim6_theorem envNoMeta candJpgBoundary [] false 0).2.2.2.2.mpr
     ⟨by decide, by simp, candJpgBoundary.modTime, by decide, by decide⟩⟩

/-- On a list with every entry set (no nil pointers), the result loop of
GenerateAccountingSummary is the fold of updateSummary. -/
theorem generateLoop_map_some (results : List ProcessingResult) :
    ∀ summary, generateLoop summary (results.map some) =
      .ok (results.foldl updateSummary summary) := by
  induction results with
  | nil => intro summary; rfl
  | cons r rest ih => intro summary; simpa [generateLoop] using ih (updateSummary summary r)

/-- How updateSummary moves each counter: one result adds one to the counter
of its bucket and leaves TotalFiles and WalkErrors untouched. -/
theorem updateSummary_fields (s : AccountingSummary) (r : ProcessingResult) :
    (updateSummary s r).copied =
      s.copied + (if stateBucket r.finalState = .copiedB then 1 else 0) ∧
    (updateSummary s r).skipped =
      s.skipped + (if stateBucket r.finalState = .skippedB then 1 else 0) ∧
    (updateSummary s r).duplicates =
      s.duplicates + (if stateBucket r.finalState = .duplicateB then 1 else 0) ∧
    (updateSummary s r).errors =
      s.errors + (if stateBucket r.finalState = .errorB then 1 else 0) ∧
    (updateSummary s r).totalFiles = s.totalFiles ∧
    (updateSummary s r).walkErrors = s.walkErrors := by
  obtain ⟨p, d, fs, e, b⟩ := r
  cases fs <;> simp [updateSummary, stateBucket]

/-- How the fold of updateSummary moves each counter: every result adds one to
the counter of its bucket and leaves TotalFiles and WalkErrors untouched. -/
theorem foldl_updateSummary_fields (results : List ProcessingResult) :
    ∀ s : AccountingSummary,
      (results.foldl updateSummary s).copied = s.copied + bucketCount .copiedB results ∧
      (results.foldl updateSummary s).skipped = s.skipped + bucketCount .skippedB results ∧
      (results.foldl updateSummary s).duplicates =
        s.duplicates + bucketCount .duplicateB results ∧
      (results.foldl updateSummary s).errors = s.errors + bucketCount .errorB results ∧
      (results.foldl updateSummary s).totalFiles = s.totalFiles ∧
      (results.foldl updateSummary s).walkErrors = s.walkErrors := by
  induction results with
  | nil => intro s; simp [bucketCount]
  | cons r rest ih =>
    intro s
    obtain ⟨h1, h2, h3, h4, h5, h6⟩ := ih (updateSummary s r)
    obtain ⟨u1, u2, u3, u4, u5, u6⟩ := updateSummary_fields s r
    refine ⟨?_, ?_, ?_, ?_, ?_, ?_⟩ <;>
      simp only [List.foldl_cons, bucketCount, h1, h2, h3, h4, h5, h6,
        u1, u2, u3, u4, u5, u6] <;> ring

/-- Each result lands in exactly one bucket: the four bucket counts partition
the result list. -/
theorem bucketCount_partition (results : List ProcessingResult) :
    bucketCount .copiedB results + bucketCount .skippedB results +
      bucketCount .duplicateB results + bucketCount .errorB results =
      (results.length : Int) := by
  induction results with
  | nil => simp [bucketCount]
  | cons r rest ih =>
    simp only [bucketCount, List.length_cons]
    cases hfs : stateBucket r.finalState <;> simp [hfs] <;> omega

/-- Claim C3 counterexample: on an empty result list with one walk error, the
generated summary violates the claimed equation
copied + skipped + duplicates + errors == totalFiles (1 versus 0), yet
Validate returns nil — so Validate does not return a non-nil error exactly
when that equation fails. -/
theorem claim3_counterexample :
    ((GenerateAccountingSummary [] ["lstat /src/sub: permission denied"]).toOption.map
      (fun s => (decide (s.copied + s.skipped + s.duplicates + s.errors = s.totalFiles),
                 s.Validate))) = some (false, none) := by rfl

/-- Claim C3 (amended): every fully-set result is assigned to exactly one of
the four buckets (the counts are the bucket counts and they partition the
list); Validate asserts copied + skipped + duplicates + errors - walkErrors ==
totalFiles, returning a non-nil error exactly when that corrected equation
fails; on any summary generated from fully-set results it returns nil. -/
theorem claim3_theorem (results : List ProcessingResult) (walkErrors : List String) :
    (∃ s, GenerateAccountingSummary (results.map some) walkErrors = .ok s ∧
      s.copied = bucketCount .copiedB results ∧
      s.skipped = bucketCount .skippedB results ∧
      s.duplicates = bucketCount .duplicateB results ∧
      s.errors = bucketCount .errorB results + (walkErrors.length : Int) ∧
      s.totalFiles = (results.length : Int) ∧
      s.walkErrors = (walkErrors.length : Int) ∧
      s.Validate = none) ∧
    (∀ as : AccountingSummary,
      as.Validate = none ↔
        as.copied + as.skipped + as.duplicates + as.errors - as.walkErrors = as.totalFiles) ∧
    bucketCount .copiedB results + bucketCount .skippedB results +
      bucketCount .duplicateB results + bucketCount .errorB results =
      (results.length : Int) := by
  have hval : ∀ as : AccountingSummary,
      as.Validate = none ↔
        as.copied + as.skipped + as.duplicates + as.errors - as.walkErrors = as.totalFiles := by
    intro as
    simp only [AccountingSummary.Validate]
    split <;> rename_i h <;> simp_all
  have hpart := bucketCount_partition results
  refine ⟨?_, hval, hpart⟩
  obtain ⟨h1, h2, h3, h4, h5, h6⟩ :=
    foldl_updateSummary_fields results
      (emptySummary (results.length : Int) (walkErrors.length : Int))
  refine ⟨{ results.foldl updateSummary
              (emptySummary (results.length : Int) (walkErrors.length : Int)) with
            errorList := (results.foldl updateSummary
              (emptySummary (results.length : Int) (walkErrors.length : Int))).errorList ++
                walkErrors.map (fun w => "walk error: " ++ w)
            errors := (results.foldl updateSummary
              (emptySummary (results.length : Int) (walkErrors.length : Int))).errors +
                (walkErrors.length : Int) },
          ?_, ?_, ?_, ?_, ?_, ?_, ?_, ?_⟩
  · simp only [GenerateAccountingSummary, generateLoop_map_some results, List.length_map]
  · simpa [emptySummary] using h1
  · simpa [emptySummary] using h2
  · simpa [emptySummary] using h3
  · simp [emptySummary] at h4 ⊢
    omega
  · simpa [emptySummary] using h5
  · simpa [emptySummary] using h6
  · rw [hval]
    simp [emptySummary] at h1 h2 h3 h4 h5 h6 ⊢
    omega

/-- Claim C4: GenerateAccountingSummary does not exclude nil entries of a
partial result slice — it dereferences them. On the slice [copied result, nil]
(the shape a cancelled run's collector returns), the fold panics (nil pointer
dereference) instead of aggregating the set entries. -/
theorem claim4_theorem :
    GenerateAccountingSummary
      [some { path := "/src/a.jpg", destPath := "/dst/2024-05/a.jpg",
              finalState := .stateCopied, error := none, bytesCopied := 5 }, none] []
      = .error "runtime error: invalid memory address or nil pointer dereference" := rfl

/-- Chunking a byte list by any buffer size and re-joining gives back the
original bytes. -/
theorem toChunks_join (b : Nat) (l : List Nat) : (toChunks b l).flatten = l := by
  induction l using toChunks.induct b with
  | case1 => simp [toChunks]
  | case2 x h hb => simp [toChunks, h, hb]
  | case3 x h hb ih =>
    rw [toChunks]
    simp only [dif_neg h, dif_neg hb]
    simp [ih, List.take_append_drop]

/-- With no cancellation and no read/write failure the copy loop completes,
feeding exactly the concatenation of the chunks. -/
theorem copyLoop_ok (env : CopyEnv) (h1 : env.cancelAt = none)
    (h2 : env.readFails = false) (h3 : env.writeFailAt = none) :
    ∀ (rest : List (List Nat)) (t idx : Nat) (acc : List Nat),
      copyLoop env rest t idx acc = .okExit (acc ++ rest.flatten) (t + rest.length) := by
  intro rest
  induction rest with
  | nil => intro t idx acc; simp [copyLoop, ctxCancelled, h1, h2]
  | cons chunk rest2 ih =>
    intro t idx acc
    rw [copyLoop]
    simp only [ctxCancelled, h1, h2, h3, List.flatten, List.length_cons]
    rw [ih (t + 1) (idx + 1) (acc ++ chunk)]
    simp [List.append_assoc]
    omega

/-- On a fully successful run the copy returns the digest of the concatenated
chunks and dst holds exactly those bytes, timestamped and renamed into place. -/
theorem copy_happyCopyEnv (digest : List Nat → String) (chunks : List (List Nat)) :
    copyFileWithHashAndTimestamps digest (happyCopyEnv chunks) =
      { hash := some (digest chunks.flatten), isError := false, tmpExists := false,
        dstWritten := true, dstBytes := chunks.flatten, dstTimestamped := true } := by
  have h := copyLoop_ok (happyCopyEnv chunks) rfl rfl rfl chunks 0 0 []
  simp only [happyCopyEnv] at h
  simp [copyFileWithHashAndTimestamps, happyCopyEnv, h, ctxCancelled]

/-- Claim C2: on an ordinary mid-stream error (a failed read after one chunk,
context never cancelled) copyFileWithHashAndTimestamps returns an error but
leaves dst+".tmp" on disk — the deferred cleanup removes the temp file only
under cancellation, contradicting the claim (and the function's own cleanup
comment); dst itself is not written. -/
theorem claim2_theorem :
    (copyFileWithHashAndTimestamps (fun _ => "") readErrorCopyEnv).isError = true ∧
    (copyFileWithHashAndTimestamps (fun _ => "") readErrorCopyEnv).tmpExists = true ∧
    (copyFileWithHashAndTimestamps (fun _ => "") readErrorCopyEnv).dstWritten = false :=
  ⟨rfl, rfl, rfl⟩

/-- Claim C7: the digest returned by the hash-while-copy equals the digest of
an independent full read (getFileHash), for every buffer size — and more
generally for every read decomposition of the source bytes — and the
destination receives exactly the source bytes. -/
theorem claim7_theorem (digest : List Nat → String) (data : List Nat) :
    (∀ bufSize : Nat, 0 < bufSize →
      (copyFileWithHashAndTimestamps digest (happyCopyEnv (toChunks bufSize data))).hash =
        some (getFileHash digest true data)) ∧
    (∀ chunks : List (List Nat), chunks.flatten = data →
      (copyFileWithHashAndTimestamps digest (happyCopyEnv chunks)).hash =
        some (getFileHash digest true data)) ∧
    (∀ bufSize : Nat, 0 < bufSize →
      (copyFileWithHashAndTimestamps digest (happyCopyEnv (toChunks bufSize data))).dstBytes =
        data) := by
  refine ⟨?_, ?_, ?_⟩
  · intro bufSize _
    rw [copy_happyCopyEnv, toChunks_join]
    simp [getFileHash]
  · intro chunks hjoin
    rw [copy_happyCopyEnv, hjoin]
    simp [getFileHash]
  · intro bufSize _
    rw [copy_happyCopyEnv, toChunks_join]

/-- Claim C7 witness: buffer sizes 1 and 2 on an empty and a 3-byte file. -/
theorem claim7_witness :
    (copyFileWithHashAndTimestamps (fun l => toString l.length)
        (happyCopyEnv (toChunks 1 []))).hash =
      some (getFileHash (fun l => toString l.length) true []) ∧
    (copyFileWithHashAndTimestamps (fun l => toString l.length)
        (happyCopyEnv (toChunks 2 [7, 8, 9]))).hash =
      some (getFileHash (fun l => toString l.length) true [7, 8, 9]) :=
  ⟨(claim7_theorem (fun l => toString l.length) []).1 1 (by decide),
   (claim7_theorem (fun l => toString l.length) [7, 8, 9]).1 2 (by decide)⟩

/-- The append-accumulator fold of the resume filter is a filter. -/
theorem foldl_append_filter {α : Type} (p : α → Bool) (l : List α) :
    ∀ acc : List α,
      l.foldl (fun a x => if p x then a ++ [x] else a) acc = acc ++ l.filter p := by
  induction l with
  | nil => intro acc; simp
  | cons x rest ih =>
    intro acc
    by_cases hx : p x <;> simp [List.filter_cons, hx, ih]

/-- Claim C8: the files handed to the execution scheduler on a resumed run are
exactly the discovered files not marked processed — every marked path is
excluded and every unmarked one is kept. -/
theorem claim8_theorem (rs : ResumeState) (files : List FileWithInfo)
    (evalFn : FileWithInfo → PlanningResult) (f : FileWithInfo) :
    f ∈ scheduledFiles rs files evalFn ↔
      f ∈ files ∧ rs.IsFileProcessed f.path = false := by
  have hfilter : filterUnprocessed rs files =
      files.filter (fun file => !(rs.IsFileProcessed file.path)) := by
    simpa [filterUnprocessed] using
      foldl_append_filter (fun file => !(rs.IsFileProcessed file.path)) files []
  simp [scheduledFiles, remainingAfterPlanning, hfilter, List.mem_filter]

/-- Claim C9 counterexample: with caller-supplied worker count 0, the planning
pass is invoked with 0 workers (the clamp has not run yet), and it evaluates
no file: a file whose planning job says copy comes back as the zero-valued
PlanningResult (not copied), so the pipeline does not process every file. -/
theorem claim9_counterexample :
    (backupPassWorkerCounts 0).1 = 0 ∧
    evaluateFilesForPlanningParallel 0 [planFileA] planEvalCopy =
      .ok [defaultPlanningResult] ∧
    planEvalCopy planFileA ≠ defaultPlanningResult ∧
    [defaultPlanningResult] ≠ [planEvalCopy planFileA] :=
  ⟨rfl, rfl, by decide, by decide⟩

/-- Claim C9 (amended): the execution pass always runs with an effective
worker count of at least 1 (workers <= 0 is clamped to 1 before
processFilesParallel), but the planning pass receives the caller-supplied
count unclamped; only for counts of at least 1 does the planning pass evaluate
every file. -/
theorem claim9_theorem (workers : Int) :
    1 ≤ (backupPassWorkerCounts workers).2 ∧
    (backupPassWorkerCounts workers).1 = workers ∧
    (∀ (files : List FileWithInfo) (evalFn : FileWithInfo → PlanningResult),
      1 ≤ workers →
      evaluateFilesForPlanningParallel workers files evalFn = .ok (files.map evalFn)) := by
  refine ⟨?_, rfl, ?_⟩
  · simp only [backupPassWorkerCounts]
    split <;> omega
  · intro files evalFn hw
    simp only [evaluateFilesForPlanningParallel]
    rw [if_neg (by omega), if_neg (by omega)]

/-- Claim C9 witness: with 2 workers the planning pass evaluates every file. -/
theorem claim9_witness :
    evaluateFilesForPlanningParallel 2 [planFileA] planEvalCopy =
      .ok ([planFileA].map planEvalCopy) :=
  (claim9_theorem 2).2.2 [planFileA] planEvalCopy (by decide)

set_option maxRecDepth 8000 in
/-- The race invariant is preserved by every atomic worker action. -/
theorem raceInv_step (r : RaceState) (first : Bool) :
    raceInv r = true → raceInv (raceStep r first) = true := by
  revert r first
  decide

/-- The race invariant holds after any interleaving from the initial state. -/
theorem raceInv_run (sched : List Bool) :
    ∀ r : RaceState, raceInv r = true → raceInv (raceRun r sched) = true := by
  induction sched with
  | nil => intro r h; exact h
  | cons i rest ih =>
    intro r h
    simpa [raceRun] using ih (raceStep r i) (raceInv_step r i h)

set_option maxRecDepth 8000 in
/-- The invariant implies the final property: both workers done means at least
one copied. -/
theorem raceInv_implies_final (r : RaceState) :
    raceInv r = true → raceFinalOK r = true := by
  revert r
  decide

/-- Claim C1 counterexample: the interleaving [check1, check2, copy1, add1,
copy2, add2] finishes both workers with both files copied — the duplicate
check and the hash-set insert are not one atomic unit (the insert happens only
in BatchInserter.Add, after the copy completes), so two workers racing on
identical content can both decide to copy. -/
theorem claim1_counterexample :
    (raceRun raceInit [true, false, true, true, false, false]).w1.copied = true ∧
    (raceRun raceInit [true, false, true, true, false, false]).w2.copied = true ∧
    (raceRun raceInit [true, false, true, true, false, false]).w1.phase = .donePhase ∧
    (raceRun raceInit [true, false, true, true, false, false]).w2.phase = .donePhase := by
  decide

/-- Claim C1 (amended): the hash is inserted into the in-memory index only by
BatchInserter.Add after the file's copy completes, and the duplicate check is
a separate unlocked read, so racing workers may both copy; what does hold on
every interleaving is that at least one of the two identical files is copied
(never do both observe a duplicate), and when one file is fully processed
before the other starts — sequential execution — the second observes the
duplicate and is not copied. -/
theorem claim1_theorem :
    (∀ sched : List Bool,
      (raceRun raceInit sched).w1.phase = .donePhase →
      (raceRun raceInit sched).w2.phase = .donePhase →
      ((raceRun raceInit sched).w1.copied = true ∨
        (raceRun raceInit sched).w2.copied = true)) ∧
    ((raceRun raceInit [true, true, true, false, false, false]).w1.copied = true ∧
     (raceRun raceInit [true, true, true, false, false, false]).w2.sawDup = true ∧
     (raceRun raceInit [true, true, true, false, false, false]).w2.copied = false) := by
  constructor
  · intro sched h1 h2
    have hinv := raceInv_run sched raceInit rfl
    have hfin := raceInv_implies_final _ hinv
    simp [raceFinalOK, h1, h2] at hfin
    exact hfin
  · decide

/-- Claim C1 witness: the invariant applied to the racing interleaving, where
both workers finish. -/
theorem claim1_witness :
    (raceRun raceInit [true, false, true, true, false, false]).w1.copied = true ∨
    (raceRun raceInit [true, false, true, true, false, false]).w2.copied = true :=
  claim1_theorem.1 [true, false, true, true, false, false] (by decide) (by decide)

/-- Claim C10: getLastBackupTime returns a nil error on every database state;
on every unreadable watermark (scan error, empty value, unparsable value) it
returns the zero time, in which case an incremental run keeps minMtime = 0 and
the classifier never skips a file as incremental. -/
theorem claim10_theorem (parse : String → Option GoTime) (scan : ScanOutcome) :
    (getLastBackupTime parse scan).2 = none ∧
    (scan = .scanError → getLastBackupTime parse scan = (GoTime.zeroTime, none)) ∧
    (∀ s, scan = .scanned s → s = "" →
      getLastBackupTime parse scan = (GoTime.zeroTime, none)) ∧
    (∀ s, scan = .scanned s → parse s = none →
      getLastBackupTime parse scan = (GoTime.zeroTime, none)) ∧
    ((getLastBackupTime parse scan).1.isZero = true →
      minMtimeFromWatermark true (getLastBackupTime parse scan).1
        (getLastBackupTime parse scan).2 = 0) ∧
    (∀ (env : ClassifierEnv) (c : FileCandidate) (hashSet : List String),
      evaluateFileForBackup env c hashSet true 0 ≠ .stateSkippedIncremental) := by
  refine ⟨?_, ?_, ?_, ?_, ?_, ?_⟩
  · cases scan with
    | scanError => rfl
    | scanned last =>
      by_cases hl : last = ""
      · simp [getLastBackupTime, hl]
      · cases hp : parse last <;> simp [getLastBackupTime, hl, hp]
  · intro hs
    subst hs
    rfl
  · intro s hs hempty
    subst hs
    simp [getLastBackupTime, hempty]
  · intro s hs hparse
    subst hs
    by_cases hempty : s = ""
    · simp [getLastBackupTime, hempty]
    · simp [getLastBackupTime, hempty, hparse]
  · intro hz
    simp [minMtimeFromWatermark, hz]
  · intro env c hashSet
    by_cases hext : allowedExtensions c.extension
    · cases hres : resolvedDate env c with
      | none =>
        simp [evaluateFileForBackup, evaluateFileForBackupI, hext, hres]
      | some date =>
        by_cases hdest : env.destExists (destPathFor c date)
        · simp [evaluateFileForBackup, evaluateFileForBackupI, hext, hres,
            evalFromDate, hdest]
        · cases hh : env.fileHash c.path with
          | none =>
            simp [evaluateFileForBackup, evaluateFileForBackupI, hext, hres,
              evalFromDate, hdest, hh]
          | some hsh =>
            by_cases hdup : hsh ∈ hashSet <;>
              simp [evaluateFileForBackup, evaluateFileForBackupI, hext, hres,
                evalFromDate, hdest, hh, hdup]
    · simp [evaluateFileForBackup, evaluateFileForBackupI, hext]

/-- Claim C10 witness: an unparsable copied_at value yields (zero time, nil
error) and minMtime 0. -/
theorem claim10_witness :
    getLastBackupTime (fun _ => none) (.scanned "not-a-timestamp") =
      (GoTime.zeroTime, none) ∧
    minMtimeFromWatermark true
      (getLastBackupTime (fun _ => none) (.scanned "not-a-timestamp")).1
      (getLastBackupTime (fun _ => none) (.scanned "not-a-timestamp")).2 = 0 :=
  ⟨(claim10_theorem (fun _ => none) (.scanned "not-a-timestamp")).2.2.2.1
      "not-a-timestamp" rfl rfl,
   (claim10_theorem (fun _ => none) (.scanned "not-a-timestamp")).2.2.2.2.1 (by decide)⟩

end Backupbozo
